import Mathlib

/-!
Verification of the Robot Control Interface contract (src/robot_control.h).

The repository ships a single C header: an enumeration of control states,
the DoFVariables record, and a macro listing the twelve functions a
device-specific plugin must implement.  The header itself carries the data
shapes and signatures; the behavioural contract (state machine, control
cycle, auxiliary channel) is specified in prose and is modelled here as a
reference implementation, faithful to the specification's words.
-/

set_option autoImplicit false

/-- The ControlState enumeration from robot_control.h:
CONTROL_PASSIVE, CONTROL_OFFSET, CONTROL_CALIBRATION, CONTROL_PREPROCESSING,
CONTROL_OPERATION, with CONTROL_STATES_NUMBER as the trailing count member. -/
inductive ControlState
  | CONTROL_PASSIVE
  | CONTROL_OFFSET
  | CONTROL_CALIBRATION
  | CONTROL_PREPROCESSING
  | CONTROL_OPERATION
deriving DecidableEq, Repr, Fintype

/-- The numeric value each enumerator receives in C (consecutive from 0). -/
def ControlState.toNat : ControlState → Nat
  | .CONTROL_PASSIVE => 0
  | .CONTROL_OFFSET => 1
  | .CONTROL_CALIBRATION => 2
  | .CONTROL_PREPROCESSING => 3
  | .CONTROL_OPERATION => 4

/-- The value of the trailing CONTROL_STATES_NUMBER enumerator in C: it
follows CONTROL_OPERATION, so it equals the number of behaviour states. -/
def CONTROL_STATES_NUMBER : Nat := 5

/-- The DoFVariables struct from robot_control.h: seven real-valued control
variables per degree of freedom.  Real values are modelled as rationals. -/
structure DoFVariables where
  position : ℚ
  velocity : ℚ
  force : ℚ
  acceleration : ℚ
  inertia : ℚ
  stiffness : ℚ
  damping : ℚ
deriving DecidableEq, Repr

/-- C types appearing in the ROBOT_CONTROL_INTERFACE macro signatures. -/
inductive CType
  | bool
  | void
  | size_t
  | const_char_ptr
  | const_char_ptr_ptr
  | control_state
  | dof_vars_ptr_ptr
  | double
  | double_ptr
deriving DecidableEq, Repr

/-- One function signature of the interface macro: name, return type and
parameter types. -/
structure InterfaceFn where
  name : String
  ret : CType
  params : List CType
deriving DecidableEq, Repr

/-- The twelve function signatures declared by the ROBOT_CONTROL_INTERFACE
macro in robot_control.h, in declaration order. -/
def ROBOT_CONTROL_INTERFACE : List InterfaceFn :=
  [ ⟨"InitController", CType.bool, [CType.const_char_ptr]⟩,
    ⟨"EndController", CType.void, []⟩,
    ⟨"GetJointsNumber", CType.size_t, []⟩,
    ⟨"GetJointNamesList", CType.const_char_ptr_ptr, []⟩,
    ⟨"GetAxesNumber", CType.size_t, []⟩,
    ⟨"GetAxisNamesList", CType.const_char_ptr_ptr, []⟩,
    ⟨"SetControlState", CType.void, [CType.control_state]⟩,
    ⟨"RunControlStep", CType.void,
      [CType.dof_vars_ptr_ptr, CType.dof_vars_ptr_ptr, CType.dof_vars_ptr_ptr,
       CType.dof_vars_ptr_ptr, CType.double]⟩,
    ⟨"GetExtraInputsNumber", CType.size_t, []⟩,
    ⟨"SetExtraInputsList", CType.void, [CType.double_ptr]⟩,
    ⟨"GetExtraOutputsNumber", CType.size_t, []⟩,
    ⟨"GetExtraOutputsList", CType.void, [CType.double_ptr]⟩ ]

/-- Modelled from the spec: the kinematic mapping between joint space and axis
space is plugin/device specific; the interface fixes only that a forward map
(joint positions to axis positions) and an inverse map exist.  Missing from
src/: any concrete plugin implementation (the repository ships only the
header). -/
structure KinematicModel where
  forward : List ℚ → List ℚ
  inverse : List ℚ → List ℚ

/-- Modelled from the spec: the mapping must be internally consistent
(round-trip stable): inverse after forward reproduces a joint vector. -/
def RoundTripStable (km : KinematicModel) : Prop :=
  ∀ v : List ℚ, km.inverse (km.forward v) = v

/-- Modelled from the spec: the symmetric consistency requirement for designs
whose authoritative direction is axis-to-joint. -/
def RoundTripStableAxis (km : KinematicModel) : Prop :=
  ∀ v : List ℚ, km.forward (km.inverse v) = v

/-- Modelled from the spec: the controller instance state a conforming plugin
maintains — fixed joint/axis counts and name lists established at init, the
active control state, the captured offset reference, the calibration extrema
window, the previous-cycle velocities used for derived terms, and the
fixed-width auxiliary input/output buffers.  Missing from src/: the plugin's
internal state (the header only declares the functions). -/
structure Controller where
  jointsNumber : Nat
  axesNumber : Nat
  jointNames : List String
  axisNames : List String
  controlState : ControlState
  offsetRefs : List ℚ
  calibMins : List ℚ
  calibMaxs : List ℚ
  lastVelocities : List ℚ
  extraInputs : List ℚ
  extraOutputs : List ℚ
deriving DecidableEq, Repr

/-- The four caller-owned DoFVariables sequences as mutated (in place, in C)
by one control step: the functional model returns the new contents. -/
structure StepOutput where
  jointMeasures : List DoFVariables
  axisMeasures : List DoFVariables
  jointSetpoints : List DoFVariables
  axisSetpoints : List DoFVariables
deriving DecidableEq, Repr

/-- Splits a character list at every occurrence of the separator character;
always returns at least one (possibly empty) group. -/
def splitChars (sep : Char) : List Char → List (List Char)
  | [] => [[]]
  | c :: rest =>
    match splitChars sep rest with
    | [] => [[c]]
    | g :: gs => if c = sep then [] :: g :: gs else (c :: g) :: gs

/-- Modelled from the spec: configuration parsing.  The spec leaves the
configuration format plugin specific; the reference grammar is a semicolon
separating the comma-separated joint name list from the comma-separated axis
name list, with every name nonempty.  Missing from src/: the concrete
plugin's configuration parser. -/
def parseConfig (cfg : String) : Option (List String × List String) :=
  match splitChars ';' cfg.data with
  | [jointsChars, axesChars] =>
    let jointParts := splitChars ',' jointsChars
    let axisParts := splitChars ',' axesChars
    if jointParts.all (fun n => !n.isEmpty) && axisParts.all (fun n => !n.isEmpty) then
      some (jointParts.map List.asString, axisParts.map List.asString)
    else none
  | _ => none

/-- A declarative well-formedness check for the reference configuration
grammar: exactly one semicolon, and every comma-separated group on either
side of it is a nonempty name. -/
def validConfig (cfg : String) : Bool :=
  (cfg.data.count ';' == 1) &&
  (splitChars ';' cfg.data).all fun grp =>
    (splitChars ',' grp).all fun n => !n.isEmpty

/-- Modelled from the spec: InitController parses the configuration,
allocates/fixes joint and axis counts and their name lists, and establishes
the initial state (Passive); it fails — returning the failure flag and no
controller state at all — when the configuration is malformed.  Missing from
src/: the plugin's InitController body (the header only declares it). -/
def InitController (cfg : String) : Option Controller :=
  match parseConfig cfg with
  | none => none
  | some (jn, an) =>
    some
      { jointsNumber := jn.length
        axesNumber := an.length
        jointNames := jn
        axisNames := an
        controlState := ControlState.CONTROL_PASSIVE
        offsetRefs := List.replicate jn.length 0
        calibMins := List.replicate jn.length 0
        calibMaxs := List.replicate jn.length 0
        lastVelocities := List.replicate jn.length 0
        extraInputs := [0]
        extraOutputs := [0] }

/-- Modelled from the spec: SetControlState transitions the active state;
entering Calibration restarts the calibration extrema window (the window
starts exactly when the state becomes active); re-setting the same state is
a no-op beyond that entry action. -/
def SetControlState (c : Controller) (s : ControlState) : Controller :=
  { c with
    controlState := s
    calibMins :=
      if s = ControlState.CONTROL_CALIBRATION then List.replicate c.jointsNumber 0
      else c.calibMins
    calibMaxs :=
      if s = ControlState.CONTROL_CALIBRATION then List.replicate c.jointsNumber 0
      else c.calibMaxs }

/-- Reports joint measurements relative to the captured offset reference:
each position has the corresponding reference subtracted (a missing
reference entry leaves the value raw). -/
def applyOffset : List DoFVariables → List ℚ → List DoFVariables
  | [], _ => []
  | v :: vs, [] => v :: vs
  | v :: vs, r :: rs => { v with position := v.position - r } :: applyOffset vs rs

/-- Modelled from the spec: acceleration is derived from the velocity change
over the cycle; when timeDelta is zero or negative the derivation must not
divide by it and the prior value is kept (the variable is left unchanged). -/
def deriveAccel (dt : ℚ) : List DoFVariables → List ℚ → List DoFVariables
  | [], _ => []
  | v :: vs, [] => v :: vs
  | v :: vs, p :: ps =>
    (if 0 < dt then { v with acceleration := (v.velocity - p) / dt } else v)
      :: deriveAccel dt vs ps

/-- Overwrites the positions of a DoFVariables sequence from a plain position
vector, leaving any tail without a corresponding entry unchanged. -/
def setPositions : List DoFVariables → List ℚ → List DoFVariables
  | [], _ => []
  | v :: vs, [] => v :: vs
  | v :: vs, p :: ps => { v with position := p } :: setPositions vs ps

/-- Modelled from the spec: in the Passive state the plugin must not apply
corrective force — force, stiffness and damping commands are zeroed so the
setpoints reflect free/compliant behaviour. -/
def suppressForces (vs : List DoFVariables) : List DoFVariables :=
  vs.map fun v => { v with force := 0, stiffness := 0, damping := 0 }

/-- Modelled from the spec: during Calibration the plugin observes
measurement minima; entries beyond the observation window are kept. -/
def updateMins : List ℚ → List ℚ → List ℚ
  | [], _ => []
  | m :: ms, [] => m :: ms
  | m :: ms, p :: ps => min m p :: updateMins ms ps

/-- Modelled from the spec: during Calibration the plugin observes
measurement maxima; entries beyond the observation window are kept. -/
def updateMaxs : List ℚ → List ℚ → List ℚ
  | [], _ => []
  | m :: ms, [] => m :: ms
  | m :: ms, p :: ps => max m p :: updateMaxs ms ps

/-- Modelled from the spec: RunControlStep, the sole per-cycle operation.
In Offset state the current raw joint positions are captured as the new
reference snapshot; joint measurements are reported relative to the active
reference; accelerations are derived from the velocity change over
timeDelta (guarded against non-positive timeDelta); axis measurements are
reconciled from the reported joint positions via forward kinematics; joint
setpoints are computed from the axis setpoints via inverse kinematics; in
Passive state force commands are suppressed while conversions still occur;
in Calibration state the measurement extrema window is updated; the
auxiliary outputs for the cycle are produced from the auxiliary inputs.
Missing from src/: the plugin's RunControlStep body. -/
def RunControlStep (km : KinematicModel) (c : Controller)
    (jointMeasures axisMeasures jointSetpoints axisSetpoints : List DoFVariables)
    (timeDelta : ℚ) : Controller × StepOutput :=
  let rawPositions := jointMeasures.map DoFVariables.position
  let refs :=
    if c.controlState = ControlState.CONTROL_OFFSET then rawPositions else c.offsetRefs
  let offsetMeasures := applyOffset jointMeasures refs
  let reportedPositions := offsetMeasures.map DoFVariables.position
  let newJointMeasures := deriveAccel timeDelta offsetMeasures c.lastVelocities
  let newAxisMeasures := setPositions axisMeasures (km.forward reportedPositions)
  let jointTargets := km.inverse (axisSetpoints.map DoFVariables.position)
  let passive := c.controlState = ControlState.CONTROL_PASSIVE
  let newJointSetpoints :=
    if passive then suppressForces (setPositions jointSetpoints jointTargets)
    else setPositions jointSetpoints jointTargets
  let newAxisSetpoints := if passive then suppressForces axisSetpoints else axisSetpoints
  let calibrating := c.controlState = ControlState.CONTROL_CALIBRATION
  ({ c with
      offsetRefs := refs
      calibMins := if calibrating then updateMins c.calibMins reportedPositions else c.calibMins
      calibMaxs := if calibrating then updateMaxs c.calibMaxs reportedPositions else c.calibMaxs
      lastVelocities := jointMeasures.map DoFVariables.velocity
      extraOutputs := c.extraInputs },
   ⟨newJointMeasures, newAxisMeasures, newJointSetpoints, newAxisSetpoints⟩)

/-- Modelled from the spec: SetExtraInputsList overwrites the fixed-width
auxiliary input buffer; the declared width never changes. -/
def SetExtraInputsList (c : Controller) (vals : List ℚ) : Controller :=
  { c with extraInputs := setVals c.extraInputs vals }
where
  setVals : List ℚ → List ℚ → List ℚ
    | [], _ => []
    | x :: xs, [] => x :: xs
    | _ :: xs, v :: vs => v :: setVals xs vs

/-- Query: fixed number of joint degrees of freedom. -/
def GetJointsNumber (c : Controller) : Nat := c.jointsNumber

/-- Query: fixed number of axis degrees of freedom. -/
def GetAxesNumber (c : Controller) : Nat := c.axesNumber

/-- Query: ordered joint name list, index-aligned with the joint sequences. -/
def GetJointNamesList (c : Controller) : List String := c.jointNames

/-- Query: ordered axis name list, index-aligned with the axis sequences. -/
def GetAxisNamesList (c : Controller) : List String := c.axisNames

/-- Query: the auxiliary outputs produced by the last control step. -/
def GetExtraOutputsList (c : Controller) : List ℚ := c.extraOutputs

/-- One externally commanded operation on a live controller instance. -/
inductive Op
  | opSetControlState (s : ControlState)
  | opRunControlStep (jm am js as : List DoFVariables) (dt : ℚ)
  | opSetExtraInputs (vals : List ℚ)

/-- Applies one operation to the controller state. -/
def applyOp (km : KinematicModel) (c : Controller) : Op → Controller
  | .opSetControlState s => SetControlState c s
  | .opRunControlStep jm am js as dt => (RunControlStep km c jm am js as dt).1
  | .opSetExtraInputs vals => SetExtraInputsList c vals

/-- Applies a sequence of operations to the controller state. -/
def applyOps (km : KinematicModel) (c : Controller) (ops : List Op) : Controller :=
  ops.foldl (applyOp km) c

/-- A concrete reference kinematic model used for witnesses: one axis
position is twice the joint position (forward), halved back (inverse). -/
def kmRef : KinematicModel :=
  ⟨fun v => v.map fun x => 2 * x, fun v => v.map fun x => x / 2⟩

/-- The controller produced by the reference configuration "j1,j2;a1". -/
def cRef : Controller :=
  { jointsNumber := 2
    axesNumber := 1
    jointNames := ["j1", "j2"]
    axisNames := ["a1"]
    controlState := ControlState.CONTROL_PASSIVE
    offsetRefs := [0, 0]
    calibMins := [0, 0]
    calibMaxs := [0, 0]
    lastVelocities := [0, 0]
    extraInputs := [0]
    extraOutputs := [0] }

/-- A concrete DoFVariables value for witnesses. -/
def dofA : DoFVariables := ⟨1, 2, 3, 4, 5, 6, 7⟩

/-- A second concrete DoFVariables value for witnesses. -/
def dofB : DoFVariables := ⟨10, 0, 1, 0, 1, 1, 1⟩

/-- A concrete operation sequence for witnesses: a state change, one control
step and an auxiliary-input update. -/
def opsRef : List Op :=
  [Op.opSetControlState ControlState.CONTROL_OPERATION,
   Op.opRunControlStep [dofA, dofB] [dofA] [dofB] [dofA] 1,
   Op.opSetExtraInputs [5]]

/-- C9: the ControlState enumeration defines exactly five behaviour states,
numbered consecutively 0 through 4 from CONTROL_PASSIVE to CONTROL_OPERATION;
CONTROL_STATES_NUMBER equals 5, every state value is strictly below it, and
the zero value denotes CONTROL_PASSIVE. -/
theorem control_state_enum_layout :
    Fintype.card ControlState = 5
    ∧ CONTROL_STATES_NUMBER = 5
    ∧ ControlState.toNat ControlState.CONTROL_PASSIVE = 0
    ∧ ControlState.toNat ControlState.CONTROL_OFFSET = 1
    ∧ ControlState.toNat ControlState.CONTROL_CALIBRATION = 2
    ∧ ControlState.toNat ControlState.CONTROL_PREPROCESSING = 3
    ∧ ControlState.toNat ControlState.CONTROL_OPERATION = 4
    ∧ (∀ s : ControlState, ControlState.toNat s < CONTROL_STATES_NUMBER)
    ∧ (∀ s : ControlState, ControlState.toNat s = 0 →
        s = ControlState.CONTROL_PASSIVE) := by
  decide

/-- C10: InitController is the only interface operation whose return type is
bool; every other operation returns void, size_t or a name-list pointer, so
the post-initialization operations have no error-reporting channel. -/
theorem init_controller_only_fallible :
    (∀ f ∈ ROBOT_CONTROL_INTERFACE, f.ret = CType.bool ↔ f.name = "InitController")
    ∧ (∀ f ∈ ROBOT_CONTROL_INTERFACE, f.name ≠ "InitController" →
        f.ret = CType.void ∨ f.ret = CType.size_t
        ∨ f.ret = CType.const_char_ptr_ptr) := by
  decide

theorem splitChars_ne_nil (sep : Char) (cs : List Char) : splitChars sep cs ≠ [] := by
  cases cs with
  | nil => simp [splitChars]
  | cons c rest =>
    rw [splitChars]
    rcases splitChars sep rest with _ | ⟨g, gs⟩
    · simp
    · by_cases hc : c = sep <;> simp [hc]

theorem splitChars_length (sep : Char) (cs : List Char) :
    (splitChars sep cs).length = cs.count sep + 1 := by
  induction cs with
  | nil => simp [splitChars]
  | cons c rest ih =>
    rw [splitChars]
    rcases h : splitChars sep rest with _ | ⟨g, gs⟩
    · exact absurd h (splitChars_ne_nil sep rest)
    · rw [h] at ih
      by_cases hc : c = sep <;>
        simp [hc, List.count_cons] at ih ⊢ <;> omega

theorem applyOffset_length (vs : List DoFVariables) (rs : List ℚ) :
    (applyOffset vs rs).length = vs.length := by
  induction vs generalizing rs with
  | nil => simp [applyOffset]
  | cons v vs ih =>
    cases rs with
    | nil => simp [applyOffset]
    | cons r rs => simp [applyOffset, ih]

theorem deriveAccel_length (dt : ℚ) (vs : List DoFVariables) (ps : List ℚ) :
    (deriveAccel dt vs ps).length = vs.length := by
  induction vs generalizing ps with
  | nil => simp [deriveAccel]
  | cons v vs ih =>
    cases ps with
    | nil => simp [deriveAccel]
    | cons p ps => simp [deriveAccel, ih]

theorem setPositions_length (vs : List DoFVariables) (ps : List ℚ) :
    (setPositions vs ps).length = vs.length := by
  induction vs generalizing ps with
  | nil => simp [setPositions]
  | cons v vs ih =>
    cases ps with
    | nil => simp [setPositions]
    | cons p ps => simp [setPositions, ih]

theorem suppressForces_length (vs : List DoFVariables) :
    (suppressForces vs).length = vs.length := by
  simp [suppressForces]

theorem deriveAccel_nonpos {dt : ℚ} (h : dt ≤ 0) (vs : List DoFVariables) (ps : List ℚ) :
    deriveAccel dt vs ps = vs := by
  induction vs generalizing ps with
  | nil => simp [deriveAccel]
  | cons v vs ih =>
    cases ps with
    | nil => simp [deriveAccel]
    | cons p ps => simp [deriveAccel, not_lt.mpr h, ih]

theorem applyOffset_map_accel (vs : List DoFVariables) (rs : List ℚ) :
    (applyOffset vs rs).map DoFVariables.acceleration
      = vs.map DoFVariables.acceleration := by
  induction vs generalizing rs with
  | nil => simp [applyOffset]
  | cons v vs ih =>
    cases rs with
    | nil => simp [applyOffset]
    | cons r rs => simp [applyOffset, ih]

theorem applyOffset_map_velocity (vs : List DoFVariables) (rs : List ℚ) :
    (applyOffset vs rs).map DoFVariables.velocity = vs.map DoFVariables.velocity := by
  induction vs generalizing rs with
  | nil => simp [applyOffset]
  | cons v vs ih =>
    cases rs with
    | nil => simp [applyOffset]
    | cons r rs => simp [applyOffset, ih]

theorem deriveAccel_map_position (dt : ℚ) (vs : List DoFVariables) (ps : List ℚ) :
    (deriveAccel dt vs ps).map DoFVariables.position = vs.map DoFVariables.position := by
  induction vs generalizing ps with
  | nil => simp [deriveAccel]
  | cons v vs ih =>
    cases ps with
    | nil => simp [deriveAccel]
    | cons p ps =>
      by_cases hdt : 0 < dt <;> simp [deriveAccel, hdt, ih]

theorem applyOffset_map_position_self (vs : List DoFVariables) (rs : List ℚ)
    (h : vs.map DoFVariables.position = rs) :
    (applyOffset vs rs).map DoFVariables.position = List.replicate vs.length 0 := by
  induction vs generalizing rs with
  | nil => simp [applyOffset]
  | cons v vs ih =>
    cases rs with
    | nil => simp at h
    | cons r rs =>
      simp only [List.map_cons, List.cons.injEq] at h
      obtain ⟨h1, h2⟩ := h
      simp [applyOffset, List.replicate_succ, ih rs h2, h1]

theorem suppressForces_mem {l : List DoFVariables} {v : DoFVariables}
    (hv : v ∈ suppressForces l) : v.force = 0 ∧ v.stiffness = 0 ∧ v.damping = 0 := by
  simp only [suppressForces, List.mem_map] at hv
  obtain ⟨w, _, hw⟩ := hv
  rw [← hw]
  exact ⟨rfl, rfl, rfl⟩

theorem suppressForces_map_position (l : List DoFVariables) :
    (suppressForces l).map DoFVariables.position = l.map DoFVariables.position := by
  simp [suppressForces, List.map_map]

theorem kmRef_stable : RoundTripStable kmRef := by
  intro v
  simp only [kmRef, List.map_map]
  have h : ((fun x : ℚ => x / 2) ∘ fun x : ℚ => 2 * x) = id := by
    funext x
    show 2 * x / 2 = x
    ring
  rw [h, List.map_id]

theorem kmRef_axis_stable : RoundTripStableAxis kmRef := by
  intro v
  simp only [kmRef, List.map_map]
  have h : ((fun x : ℚ => 2 * x) ∘ fun x : ℚ => x / 2) = id := by
    funext x
    show 2 * (x / 2) = x
    ring
  rw [h, List.map_id]

theorem initRef : InitController "j1,j2;a1" = some cRef := by rfl

theorem applyOp_fixed (km : KinematicModel) (c : Controller) (op : Op) :
    (applyOp km c op).jointsNumber = c.jointsNumber
    ∧ (applyOp km c op).axesNumber = c.axesNumber
    ∧ (applyOp km c op).jointNames = c.jointNames
    ∧ (applyOp km c op).axisNames = c.axisNames := by
  cases op <;>
    simp [applyOp, SetControlState, RunControlStep, SetExtraInputsList]

theorem applyOps_fixed (km : KinematicModel) (ops : List Op) :
    ∀ c : Controller,
      (applyOps km c ops).jointsNumber = c.jointsNumber
      ∧ (applyOps km c ops).axesNumber = c.axesNumber
      ∧ (applyOps km c ops).jointNames = c.jointNames
      ∧ (applyOps km c ops).axisNames = c.axisNames := by
  induction ops with
  | nil => intro c; simp [applyOps]
  | cons op ops ih =>
    intro c
    have h1 := applyOp_fixed km c op
    have h2 := ih (applyOp km c op)
    simp only [applyOps, List.foldl_cons] at h2 ⊢
    exact ⟨h2.1.trans h1.1, h2.2.1.trans h1.2.1,
      h2.2.2.1.trans h1.2.2.1, h2.2.2.2.trans h1.2.2.2⟩

/-- C1: for every joint measurement vector processed by RunControlStep,
applying the plugin's forward kinematic mapping and then its inverse
reproduces the vector (exactly, tolerance zero, in the exact-arithmetic
model) whenever the plugin's mapping is internally consistent as the spec
requires; symmetrically for designs whose authoritative direction is
axis-to-joint. -/
theorem kinematic_round_trip (km : KinematicModel) (c : Controller)
    (jm am js as : List DoFVariables) (dt : ℚ) :
    (RoundTripStable km →
      km.inverse (km.forward (jm.map DoFVariables.position)) = jm.map DoFVariables.position
      ∧ km.inverse (km.forward
          ((RunControlStep km c jm am js as dt).2.jointMeasures.map DoFVariables.position))
        = (RunControlStep km c jm am js as dt).2.jointMeasures.map DoFVariables.position)
    ∧ (RoundTripStableAxis km →
      km.forward (km.inverse
          ((RunControlStep km c jm am js as dt).2.axisMeasures.map DoFVariables.position))
        = (RunControlStep km c jm am js as dt).2.axisMeasures.map DoFVariables.position) :=
  ⟨fun h => ⟨h _, h _⟩, fun h => h _⟩

/-- Witness for C1 at the reference kinematic model, the reference controller
and concrete measurement vectors. -/
theorem kinematic_round_trip_check :
    (kmRef.inverse (kmRef.forward ([dofA, dofB].map DoFVariables.position))
        = [dofA, dofB].map DoFVariables.position
      ∧ kmRef.inverse (kmRef.forward
          ((RunControlStep kmRef cRef [dofA, dofB] [dofA] [dofB] [dofA] 1).2.jointMeasures.map
            DoFVariables.position))
        = (RunControlStep kmRef cRef [dofA, dofB] [dofA] [dofB] [dofA] 1).2.jointMeasures.map
            DoFVariables.position)
    ∧ kmRef.forward (kmRef.inverse
        ((RunControlStep kmRef cRef [dofA, dofB] [dofA] [dofB] [dofA] 1).2.axisMeasures.map
          DoFVariables.position))
      = (RunControlStep kmRef cRef [dofA, dofB] [dofA] [dofB] [dofA] 1).2.axisMeasures.map
          DoFVariables.position :=
  ⟨(kinematic_round_trip kmRef cRef [dofA, dofB] [dofA] [dofB] [dofA] 1).1 kmRef_stable,
   (kinematic_round_trip kmRef cRef [dofA, dofB] [dofA] [dofB] [dofA] 1).2 kmRef_axis_stable⟩

/-- C2: with a zero or negative timeDelta, RunControlStep performs no
division by timeDelta — its result coincides with the conventional
timeDelta = 0 result, the acceleration and velocity entries keep their prior
values, and the auxiliary outputs are produced as usual; the step is a total
function, so it cannot fault, and over exact rationals no NaN/Inf value
exists to be produced. -/
theorem run_control_step_nonpositive_time_delta (km : KinematicModel) (c : Controller)
    (jm am js as : List DoFVariables) (dt : ℚ) (h : dt ≤ 0) :
    RunControlStep km c jm am js as dt = RunControlStep km c jm am js as 0
    ∧ (RunControlStep km c jm am js as dt).2.jointMeasures.map DoFVariables.acceleration
      = jm.map DoFVariables.acceleration
    ∧ (RunControlStep km c jm am js as dt).2.jointMeasures.map DoFVariables.velocity
      = jm.map DoFVariables.velocity
    ∧ (RunControlStep km c jm am js as dt).1.extraOutputs = c.extraInputs := by
  refine ⟨?_, ?_, ?_, ?_⟩
  · simp only [RunControlStep, deriveAccel_nonpos h, deriveAccel_nonpos (le_refl (0 : ℚ))]
  · simp only [RunControlStep, deriveAccel_nonpos h]
    exact applyOffset_map_accel jm _
  · simp only [RunControlStep, deriveAccel_nonpos h]
    exact applyOffset_map_velocity jm _
  · simp [RunControlStep]

/-- Witness for C2 at timeDelta = -1 with concrete inputs. -/
theorem run_control_step_nonpositive_time_delta_check :
    RunControlStep kmRef cRef [dofA, dofB] [dofA] [dofB] [dofA] (-1)
      = RunControlStep kmRef cRef [dofA, dofB] [dofA] [dofB] [dofA] 0
    ∧ (RunControlStep kmRef cRef [dofA, dofB] [dofA] [dofB] [dofA] (-1)).2.jointMeasures.map
        DoFVariables.acceleration
      = [dofA, dofB].map DoFVariables.acceleration
    ∧ (RunControlStep kmRef cRef [dofA, dofB] [dofA] [dofB] [dofA] (-1)).2.jointMeasures.map
        DoFVariables.velocity
      = [dofA, dofB].map DoFVariables.velocity
    ∧ (RunControlStep kmRef cRef [dofA, dofB] [dofA] [dofB] [dofA] (-1)).1.extraOutputs
      = cRef.extraInputs :=
  run_control_step_nonpositive_time_delta kmRef cRef [dofA, dofB] [dofA] [dofB] [dofA]
    (-1) (by norm_num)

/-- C3: re-setting the current control state is a no-op beyond the (idempotent)
state-entry action: calling SetControlState twice with the same state yields
the same controller state, and hence the same subsequent RunControlStep
behaviour, as calling it once. -/
theorem set_control_state_idempotent (km : KinematicModel) (c : Controller)
    (s : ControlState) (jm am js as : List DoFVariables) (dt : ℚ) :
    SetControlState (SetControlState c s) s = SetControlState c s
    ∧ RunControlStep km (SetControlState (SetControlState c s) s) jm am js as dt
      = RunControlStep km (SetControlState c s) jm am js as dt := by
  have h1 : SetControlState (SetControlState c s) s = SetControlState c s := by
    by_cases hs : s = ControlState.CONTROL_CALIBRATION <;> simp [SetControlState, hs]
  exact ⟨h1, by rw [h1]⟩

/-- C6: RunControlStep never resizes the four caller-owned DoFVariables
sequences: each returned sequence has exactly the length of the sequence it
replaces (the functional rendering of in-place mutation), and being a pure
function the engine retains nothing beyond the call. -/
theorem run_control_step_preserves_lengths (km : KinematicModel) (c : Controller)
    (jm am js as : List DoFVariables) (dt : ℚ) :
    (RunControlStep km c jm am js as dt).2.jointMeasures.length = jm.length
    ∧ (RunControlStep km c jm am js as dt).2.axisMeasures.length = am.length
    ∧ (RunControlStep km c jm am js as dt).2.jointSetpoints.length = js.length
    ∧ (RunControlStep km c jm am js as dt).2.axisSetpoints.length = as.length := by
  refine ⟨?_, ?_, ?_, ?_⟩ <;>
    simp [RunControlStep, deriveAccel_length, applyOffset_length, setPositions_length,
      suppressForces_length, apply_ite List.length]

/-- C4: after InitController succeeds, the joint/axis counts and name lists
reported by the queries are constant under every sequence of subsequent
operations, and each name list has length equal to its count (index-aligned
with the DoFVariables sequences). -/
theorem init_fixes_counts_and_names (cfg : String) (c : Controller)
    (h : InitController cfg = some c) (km : KinematicModel) (ops : List Op) :
    GetJointsNumber (applyOps km c ops) = GetJointsNumber c
    ∧ GetAxesNumber (applyOps km c ops) = GetAxesNumber c
    ∧ GetJointNamesList (applyOps km c ops) = GetJointNamesList c
    ∧ GetAxisNamesList (applyOps km c ops) = GetAxisNamesList c
    ∧ (GetJointNamesList c).length = GetJointsNumber c
    ∧ (GetAxisNamesList c).length = GetAxesNumber c := by
  have hfix := applyOps_fixed km ops c
  refine ⟨hfix.1, hfix.2.1, hfix.2.2.1, hfix.2.2.2, ?_, ?_⟩ <;>
  · rcases hp : parseConfig cfg with _ | ⟨jn, an⟩ <;>
      simp [InitController, hp] at h
    rw [← h]
    simp [GetJointNamesList, GetJointsNumber, GetAxisNamesList, GetAxesNumber]

/-- Witness for C4 at the reference configuration and operation sequence. -/
theorem init_fixes_counts_and_names_check :
    GetJointsNumber (applyOps kmRef cRef opsRef) = GetJointsNumber cRef
    ∧ GetAxesNumber (applyOps kmRef cRef opsRef) = GetAxesNumber cRef
    ∧ GetJointNamesList (applyOps kmRef cRef opsRef) = GetJointNamesList cRef
    ∧ GetAxisNamesList (applyOps kmRef cRef opsRef) = GetAxisNamesList cRef
    ∧ (GetJointNamesList cRef).length = GetJointsNumber cRef
    ∧ (GetAxisNamesList cRef).length = GetAxesNumber cRef :=
  init_fixes_counts_and_names "j1,j2;a1" cRef (by rfl) kmRef opsRef

/-- C5: InitController fails exactly on malformed configurations, and the
failure is reported only through its boolean (here: option) result — a
failing call yields no controller state at all, so no partial externally
observable state exists. -/
theorem init_failure_iff_malformed (cfg : String) :
    InitController cfg = none ↔ validConfig cfg = false := by
  have hlen := splitChars_length ';' cfg.data
  rcases h : splitChars ';' cfg.data with _ | ⟨j, _ | ⟨a, _ | ⟨x, rest⟩⟩⟩
  · exact absurd h (splitChars_ne_nil ';' cfg.data)
  · rw [h] at hlen
    simp only [List.length_cons, List.length_nil] at hlen
    have hcount : cfg.data.count ';' = 0 := by omega
    simp [InitController, parseConfig, validConfig, h, hcount]
  · rw [h] at hlen
    simp only [List.length_cons, List.length_nil] at hlen
    have hcount : cfg.data.count ';' = 1 := by omega
    rcases hb1 : (splitChars ',' j).all fun n => !n.isEmpty <;>
      rcases hb2 : (splitChars ',' a).all fun n => !n.isEmpty <;>
        simp [InitController, parseConfig, validConfig, h, hcount, hb1, hb2]
  · rw [h] at hlen
    simp only [List.length_cons] at hlen
    have hcount : cfg.data.count ';' ≠ 1 := by omega
    simp [InitController, parseConfig, validConfig, h, hcount]

/-- C7: a control step run in the Offset state captures the current raw joint
positions as the complete snapshot reference; the reference is retained by
subsequent state changes and non-Offset steps, and any subsequent measurement
whose raw positions equal the captured reference is reported as zero. -/
theorem offset_capture_reference (km : KinematicModel) (c : Controller)
    (jm am js as jm2 am2 js2 as2 : List DoFVariables) (dt dt2 : ℚ) (s : ControlState)
    (hs : s ≠ ControlState.CONTROL_OFFSET)
    (hraw : jm2.map DoFVariables.position
      = (RunControlStep km (SetControlState c ControlState.CONTROL_OFFSET)
          jm am js as dt).1.offsetRefs) :
    (RunControlStep km (SetControlState c ControlState.CONTROL_OFFSET)
        jm am js as dt).1.offsetRefs
      = jm.map DoFVariables.position
    ∧ (RunControlStep km
        (SetControlState
          (RunControlStep km (SetControlState c ControlState.CONTROL_OFFSET)
            jm am js as dt).1 s)
        jm2 am2 js2 as2 dt2).2.jointMeasures.map DoFVariables.position
      = List.replicate jm2.length 0
    ∧ (∀ c' : Controller, ∀ s' : ControlState,
        (SetControlState c' s').offsetRefs = c'.offsetRefs)
    ∧ (∀ c' : Controller, ∀ jm' am' js' as' : List DoFVariables, ∀ dt' : ℚ,
        c'.controlState ≠ ControlState.CONTROL_OFFSET →
        (RunControlStep km c' jm' am' js' as' dt').1.offsetRefs = c'.offsetRefs) := by
  refine ⟨?_, ?_, ?_, ?_⟩
  · simp [RunControlStep, SetControlState]
  · simp only [RunControlStep, deriveAccel_map_position]
    rw [if_neg (by simp [SetControlState, hs])]
    exact applyOffset_map_position_self jm2 _
      (by simpa [SetControlState, RunControlStep] using hraw)
  · intro c' s'
    simp [SetControlState]
  · intro c' jm' am' js' as' dt' h'
    simp [RunControlStep, h']

/-- Witness for C7: capture at raw joint positions [1, 10], then a step in
Operation state with the same raw positions reads [0, 0]. -/
theorem offset_capture_reference_check :
    (RunControlStep kmRef (SetControlState cRef ControlState.CONTROL_OFFSET)
        [dofA, dofB] [dofA] [dofB] [dofA] 1).1.offsetRefs
      = [dofA, dofB].map DoFVariables.position
    ∧ (RunControlStep kmRef
        (SetControlState
          (RunControlStep kmRef (SetControlState cRef ControlState.CONTROL_OFFSET)
            [dofA, dofB] [dofA] [dofB] [dofA] 1).1 ControlState.CONTROL_OPERATION)
        [dofA, dofB] [dofB] [dofA] [dofB] 1).2.jointMeasures.map DoFVariables.position
      = List.replicate ([dofA, dofB] : List DoFVariables).length 0
    ∧ (∀ c' : Controller, ∀ s' : ControlState,
        (SetControlState c' s').offsetRefs = c'.offsetRefs)
    ∧ (∀ c' : Controller, ∀ jm' am' js' as' : List DoFVariables, ∀ dt' : ℚ,
        c'.controlState ≠ ControlState.CONTROL_OFFSET →
        (RunControlStep kmRef c' jm' am' js' as' dt').1.offsetRefs = c'.offsetRefs) :=
  offset_capture_reference kmRef cRef [dofA, dofB] [dofA] [dofB] [dofA] [dofA, dofB]
    [dofB] [dofA] [dofB] 1 1 ControlState.CONTROL_OPERATION (by decide) (by rfl)

/-- C8: every successful InitController establishes the Passive state, and a
step run in the Passive state commands no corrective force — all force,
stiffness and damping entries of both setpoint sequences are zeroed — while
the coordinate conversions still occur exactly as they would in the
Operation state. -/
theorem passive_init_and_compliance :
    (∀ cfg : String, ∀ c : Controller, InitController cfg = some c →
      c.controlState = ControlState.CONTROL_PASSIVE)
    ∧ (∀ km : KinematicModel, ∀ c : Controller, ∀ jm am js as : List DoFVariables, ∀ dt : ℚ,
        c.controlState = ControlState.CONTROL_PASSIVE →
        (∀ v ∈ (RunControlStep km c jm am js as dt).2.jointSetpoints,
          v.force = 0 ∧ v.stiffness = 0 ∧ v.damping = 0)
        ∧ (∀ v ∈ (RunControlStep km c jm am js as dt).2.axisSetpoints,
          v.force = 0 ∧ v.stiffness = 0 ∧ v.damping = 0)
        ∧ (RunControlStep km c jm am js as dt).2.axisMeasures
          = (RunControlStep km { c with controlState := ControlState.CONTROL_OPERATION }
              jm am js as dt).2.axisMeasures
        ∧ (RunControlStep km c jm am js as dt).2.jointSetpoints.map DoFVariables.position
          = (RunControlStep km { c with controlState := ControlState.CONTROL_OPERATION }
              jm am js as dt).2.jointSetpoints.map DoFVariables.position) := by
  constructor
  · intro cfg c h
    rcases hp : parseConfig cfg with _ | ⟨jn, an⟩ <;> simp [InitController, hp] at h
    rw [← h]
  · intro km c jm am js as dt hc
    refine ⟨?_, ?_, ?_, ?_⟩
    · intro v hv
      simp only [RunControlStep, hc] at hv
      simp at hv
      exact suppressForces_mem hv
    · intro v hv
      simp only [RunControlStep, hc] at hv
      simp at hv
      exact suppressForces_mem hv
    · simp [RunControlStep, hc]
    · simp [RunControlStep, hc, suppressForces_map_position]

/-- Witness for C8: the reference configuration initializes to Passive, and a
Passive step at concrete inputs zeroes the joint setpoint force commands. -/
theorem passive_init_and_compliance_check :
    cRef.controlState = ControlState.CONTROL_PASSIVE
    ∧ (∀ v ∈ (RunControlStep kmRef cRef [dofA, dofB] [dofA] [dofB] [dofA] 1).2.jointSetpoints,
        v.force = 0 ∧ v.stiffness = 0 ∧ v.damping = 0) :=
  ⟨passive_init_and_compliance.1 "j1,j2;a1" cRef (by rfl),
   (passive_init_and_compliance.2 kmRef cRef [dofA, dofB] [dofA] [dofB] [dofA] 1 (by rfl)).1⟩
